import Mathlib

/-!
Verification of the AIClient-2-API gateway against its specification.

The repository snapshot contains the process supervisor (src/core/master.js),
the proxy utilities (src/utils/proxy-utils.js), the JSON merger script
(src/scripts/merge-json-files.js) and assorted UI glue.  The conversion
engine, provider pool and fallback router described by the specification are
referenced by the tests but their sources are not in the snapshot; those
parts are modelled here directly from the specification text, and each such
definition says so in its doc comment.
-/

/- ===== JavaScript value model (shared by proxy-utils and the merger) ===== -/

/-- Model of a JavaScript value as it can reach the embedded functions:
undefined, null, booleans, (integer) numbers, strings, arrays and plain
objects.  Objects are association lists in JavaScript key order. -/
inductive JSValue where
  | undef : JSValue
  | nullv : JSValue
  | bool (b : Bool) : JSValue
  | num (n : Int) : JSValue
  | str (s : String) : JSValue
  | arr (elems : List JSValue) : JSValue
  | obj (fields : List (String × JSValue)) : JSValue

/-- JavaScript truthiness of a modelled value. -/
def JSValue.truthy : JSValue → Bool
  | .undef => false
  | .nullv => false
  | .bool b => b
  | .num n => n != 0
  | .str s => s != ""
  | .arr _ => true
  | .obj _ => true

/-- Whether typeof the value is the string type. -/
def JSValue.isString : JSValue → Bool
  | .str _ => true
  | _ => false

/- ===== src/utils/proxy-utils.js : parseProxyUrl ===== -/

/-- Model of the JavaScript String.prototype.trim on the character list:
whitespace stripped from both ends. -/
def jsTrim (s : String) : String :=
  ⟨((s.data.dropWhile Char.isWhitespace).reverse.dropWhile Char.isWhitespace).reverse⟩

/-- Model of the JavaScript String.prototype.toLowerCase on the character
list. -/
def jsToLower (s : String) : String :=
  ⟨s.data.map Char.toLower⟩

/-- The part of a WHATWG URL record that parseProxyUrl inspects: the
protocol, which for a successfully parsed URL is the scheme followed by a
colon. -/
structure ParsedURL where
  protocol : String
deriving DecidableEq, Repr

/-- The part of the proxy configuration object that determines behaviour:
the proxyType tag (the agent objects are opaque). -/
structure ProxyConfig where
  proxyType : String
deriving DecidableEq, Repr

/-- Embedding of parseProxyUrl (src/utils/proxy-utils.js lines 15-52),
parameterised by the platform URL parser, which returns none when the URL
constructor would throw.  A thrown parse error is caught by the source and
turned into a null return, so the embedding is total. -/
def parseProxyUrl (urlParse : String → Option ParsedURL) (proxyUrl : JSValue) :
    Option ProxyConfig :=
  if !proxyUrl.truthy || !proxyUrl.isString then none
  else
    match proxyUrl with
    | .str s =>
      let trimmedUrl := jsTrim s
      if trimmedUrl = "" then none
      else
        match urlParse trimmedUrl with
        | none => none
        | some url =>
          let protocol := jsToLower url.protocol
          if protocol = "socks5:" ∨ protocol = "socks4:" ∨ protocol = "socks:" then
            some { proxyType := "socks" }
          else if protocol = "http:" ∨ protocol = "https:" then
            some { proxyType := "http" }
          else none
    | _ => none

/- ===== src/core/master.js : scheduleRestart ===== -/

/-- The restart tuning fields of the master-process config object
(src/core/master.js lines 35-41). -/
structure MasterConfig where
  maxRestartAttempts : Nat
  restartDelay : Nat
deriving DecidableEq, Repr

/-- The literal values assigned in src/core/master.js. -/
def defaultMasterConfig : MasterConfig :=
  { maxRestartAttempts := 10, restartDelay := 1000 }

/-- Embedding of scheduleRestart (src/core/master.js lines 179-191) reduced
to the delay it computes: none when the maximum restart count is reached
(the source gives up), otherwise the delay
min (restartDelay * 2 ^ restartCount) 30000. -/
def scheduleRestartDelay (cfg : MasterConfig) (restartCount : Nat) : Option Nat :=
  if cfg.maxRestartAttempts ≤ restartCount then none
  else some (min (cfg.restartDelay * 2 ^ restartCount) 30000)

/- ===== src/scripts/merge-json-files.js : the merge loop and output ===== -/

/-- Assignment of one key on a JavaScript object: an existing key keeps its
position and gets the new value, a new key is appended. -/
def setKey (fields : List (String × JSValue)) (k : String) (v : JSValue) :
    List (String × JSValue) :=
  if fields.any (fun p => p.1 == k) then
    fields.map (fun p => if p.1 == k then (k, v) else p)
  else fields ++ [(k, v)]

/-- Object.assign(target, src): each own key of src is assigned onto target
in order. -/
def objAssign (target src : List (String × JSValue)) : List (String × JSValue) :=
  src.foldl (fun acc kv => setKey acc kv.1 kv.2) target

/-- Property lookup on a modelled object. -/
def getKey (fields : List (String × JSValue)) (k : String) : Option JSValue :=
  (fields.find? (fun p => p.1 == k)).map (fun p => p.2)

/-- Truthiness of a property access, with a missing key reading as
undefined, hence falsy. -/
def truthyKey (fields : List (String × JSValue)) (k : String) : Bool :=
  match getKey fields k with
  | some v => v.truthy
  | none => false

/-- The delete operator on a modelled object. -/
def deleteKey (fields : List (String × JSValue)) (k : String) :
    List (String × JSValue) :=
  fields.filter (fun p => !(p.1 == k))

/-- The merge loop of main (src/scripts/merge-json-files.js lines 55-90)
from the point where each file has been parsed: only plain objects (not
null, not arrays) are merged into mergedData with Object.assign, in file
order; everything else is skipped. -/
def mergeFiles (files : List JSValue) : List (String × JSValue) :=
  files.foldl
    (fun acc j =>
      match j with
      | .obj fs => objAssign acc fs
      | _ => acc)
    []

/-- The special handling of src/scripts/merge-json-files.js lines 92-96:
if mergedData.clientSecret and mergedData.expiresAt are both truthy, the
expiresAt field is deleted. -/
def stripExpiresAt (fields : List (String × JSValue)) : List (String × JSValue) :=
  if truthyKey fields "clientSecret" && truthyKey fields "expiresAt" then
    deleteKey fields "expiresAt"
  else fields

/-- The object main writes to the output file (lines 104-109): the merged
object after the special handling. -/
def mergedOutput (files : List JSValue) : List (String × JSValue) :=
  stripExpiresAt (mergeFiles files)

/-- A URL parser used to instantiate theorems about parseProxyUrl at
concrete inputs. -/
def demoURLParse : String → Option ParsedURL :=
  fun s =>
    if s = "socks5://127.0.0.1:1080" then some { protocol := "socks5:" } else none

/- ===== Theorems ===== -/

theorem getKey_deleteKey (fields : List (String × JSValue)) (k : String) :
    getKey (deleteKey fields k) k = none := by
  induction fields with
  | nil => rfl
  | cons p rest ih =>
    simp only [deleteKey, List.filter_cons] at *
    by_cases h : p.1 == k
    · simp only [h, Bool.not_true, if_neg, Bool.false_eq_true, not_false_iff, ite_false]
      exact ih
    · simp only [h, Bool.not_false, ite_true]
      simp only [getKey, List.find?_cons, h] at *
      exact ih

/-- C9: in the JSON merger, whenever the merged object has a truthy
clientSecret and a truthy expiresAt, the expiresAt field is removed before
the merged object is written; when clientSecret is absent or falsy the
merged object (expiresAt included) is written through unchanged. -/
theorem mergedOutput_expiresAt (files : List JSValue) :
    (truthyKey (mergeFiles files) "clientSecret" = true →
      truthyKey (mergeFiles files) "expiresAt" = true →
      getKey (mergedOutput files) "expiresAt" = none) ∧
    (truthyKey (mergeFiles files) "clientSecret" = false →
      mergedOutput files = mergeFiles files) := by
  constructor
  · intro h1 h2
    simp [mergedOutput, stripExpiresAt, h1, h2, getKey_deleteKey]
  · intro h1
    simp [mergedOutput, stripExpiresAt, h1]

/-- Witness for C9 at a concrete run: one file holding both fields. -/
theorem mergedOutput_expiresAt_witness :
    getKey
      (mergedOutput
        [JSValue.obj [("clientSecret", JSValue.str "s"), ("expiresAt", JSValue.str "t")]])
      "expiresAt" = none :=
  (mergedOutput_expiresAt
    [JSValue.obj [("clientSecret", JSValue.str "s"), ("expiresAt", JSValue.str "t")]]).1
    (by decide) (by decide)

/-- C10: parseProxyUrl is total and its result is fully determined by the
case analysis of the source: none for every non-string, none for an empty
or whitespace-only string, none when URL parsing fails, a socks
configuration for schemes socks, socks4, socks5, an http configuration for
schemes http and https, and none for every other scheme. -/
theorem parseProxyUrl_cases (urlParse : String → Option ParsedURL) :
    (∀ v : JSValue, v.isString = false → parseProxyUrl urlParse v = none) ∧
    (∀ s : String, jsTrim s = "" → parseProxyUrl urlParse (.str s) = none) ∧
    (∀ s : String, urlParse (jsTrim s) = none → parseProxyUrl urlParse (.str s) = none) ∧
    (∀ s : String, ∀ u : ParsedURL, urlParse (jsTrim s) = some u → jsTrim s ≠ "" →
      (jsToLower u.protocol = "socks5:" ∨ jsToLower u.protocol = "socks4:" ∨
        jsToLower u.protocol = "socks:") →
      parseProxyUrl urlParse (.str s) = some { proxyType := "socks" }) ∧
    (∀ s : String, ∀ u : ParsedURL, urlParse (jsTrim s) = some u → jsTrim s ≠ "" →
      (jsToLower u.protocol = "http:" ∨ jsToLower u.protocol = "https:") →
      parseProxyUrl urlParse (.str s) = some { proxyType := "http" }) ∧
    (∀ s : String, ∀ u : ParsedURL, urlParse (jsTrim s) = some u →
      jsToLower u.protocol ≠ "socks5:" → jsToLower u.protocol ≠ "socks4:" →
      jsToLower u.protocol ≠ "socks:" → jsToLower u.protocol ≠ "http:" →
      jsToLower u.protocol ≠ "https:" →
      parseProxyUrl urlParse (.str s) = none) := by
  have hempty : jsTrim "" = "" := by decide
  refine ⟨?_, ?_, ?_, ?_, ?_, ?_⟩
  · intro v h
    cases v <;> simp_all [parseProxyUrl, JSValue.isString]
  · intro s h
    by_cases hs : s = ""
    · subst hs; rfl
    · simp [parseProxyUrl, JSValue.truthy, JSValue.isString, hs, h]
  · intro s hp
    by_cases hs : s = ""
    · subst hs; rfl
    · by_cases htr : jsTrim s = ""
      · simp [parseProxyUrl, JSValue.truthy, JSValue.isString, hs, htr]
      · simp [parseProxyUrl, JSValue.truthy, JSValue.isString, hs, htr, hp]
  · intro s u hp htr hsch
    have hs : s ≠ "" := by
      intro h; rw [h] at htr; exact htr hempty
    simp [parseProxyUrl, JSValue.truthy, JSValue.isString, hs, htr, hp, hsch]
  · intro s u hp htr hsch
    have hs : s ≠ "" := by
      intro h; rw [h] at htr; exact htr hempty
    have hnotsocks : ¬(jsToLower u.protocol = "socks5:" ∨ jsToLower u.protocol = "socks4:" ∨
        jsToLower u.protocol = "socks:") := by
      rcases hsch with h | h <;> rw [h] <;> decide
    simp [parseProxyUrl, JSValue.truthy, JSValue.isString, hs, htr, hp, hsch, hnotsocks]
  · intro s u hp h1 h2 h3 h4 h5
    by_cases hs : s = ""
    · subst hs; rfl
    · by_cases htr : jsTrim s = ""
      · simp [parseProxyUrl, JSValue.truthy, JSValue.isString, hs, htr]
      · simp [parseProxyUrl, JSValue.truthy, JSValue.isString, hs, htr, hp, h1, h2, h3, h4, h5]

/-- Witness for C10 at a concrete input: a padded socks5 URL under the demo
parser yields a socks configuration. -/
theorem parseProxyUrl_cases_witness :
    parseProxyUrl demoURLParse (JSValue.str " socks5://127.0.0.1:1080 ") =
      some { proxyType := "socks" } :=
  (parseProxyUrl_cases demoURLParse).2.2.2.1 " socks5://127.0.0.1:1080 "
    { protocol := "socks5:" } (by decide) (by decide) (Or.inl (by decide))

/-- C8: the restart backoff delay is a pure function of the attempt number
and the config constants: for every attempt number n with 1 ≤ n and
attempts remaining, the scheduled wait equals
restartDelay * 2 ^ (n - 1), capped at 30000 milliseconds. -/
theorem scheduleRestartDelay_backoff (cfg : MasterConfig) (n : Nat)
    (h1 : 1 ≤ n) (h2 : n ≤ cfg.maxRestartAttempts) :
    scheduleRestartDelay cfg (n - 1) =
      some (min (cfg.restartDelay * 2 ^ (n - 1)) 30000) := by
  have h : ¬ cfg.maxRestartAttempts ≤ n - 1 := by omega
  simp [scheduleRestartDelay, h]

/-- Witness for C8: the third attempt under the shipped config waits
4000 milliseconds. -/
theorem scheduleRestartDelay_backoff_witness :
    scheduleRestartDelay defaultMasterConfig 2 = some 4000 :=
  scheduleRestartDelay_backoff defaultMasterConfig 3 (by decide) (by decide)

/- ===== Canonical model and converters (C1) ===== -/

/-- Modelled from the spec: ContentPart, the tagged content variant of the
Canonical Model (spec section 3); the Canonical Model source is not in the
repository snapshot. -/
inductive ContentPart where
  | text (s : String) : ContentPart
  | image (reference : String) (mimeType : String) : ContentPart
  | toolCall (id : String) (name : String) (argumentsJSON : String) : ContentPart
  | toolResult (toolCallId : String) (output : String) : ContentPart
deriving DecidableEq, Repr

/-- Modelled from the spec: mime-type normalisation applied when an image
part is encoded (images round-trip byte-identically apart from this). -/
def normalizeMime (m : String) : String := jsToLower m

/-- Modelled from the spec: the per-content-part face of a Converter
(spec 4.1): the declared supported kinds, the encoding into the native
form (none models a ConversionError for an unsupported kind) and the
decoding back to canonical form. -/
structure PartConverter (Native : Type) where
  supports : ContentPart → Bool
  toNative : ContentPart → Option Native
  toCanonical : Native → Option ContentPart

/-- Modelled from the spec: the native content part of an OpenAI-style
provider. -/
inductive OpenAINativePart where
  | textPart (text : String) : OpenAINativePart
  | imageUrl (url : String) (mimeType : String) : OpenAINativePart
  | toolCallPart (id : String) (functionName : String) (arguments : String) : OpenAINativePart
  | toolMsg (toolCallId : String) (content : String) : OpenAINativePart
deriving DecidableEq, Repr

/-- Modelled from the spec: the native content part of a Gemini-style
provider, which does not carry tool results. -/
inductive GeminiNativePart where
  | textPart (text : String) : GeminiNativePart
  | inlineData (mimeType : String) (data : String) : GeminiNativePart
  | functionCall (id : String) (name : String) (args : String) : GeminiNativePart
deriving DecidableEq, Repr

/-- Modelled from the spec: the OpenAI-style converter supports every
content kind; encoding normalises the image mime type. -/
def openAIPartConverter : PartConverter OpenAINativePart where
  supports := fun _ => true
  toNative := fun p =>
    match p with
    | .text s => some (.textPart s)
    | .image r m => some (.imageUrl r (normalizeMime m))
    | .toolCall i n a => some (.toolCallPart i n a)
    | .toolResult i o => some (.toolMsg i o)
  toCanonical := fun n =>
    match n with
    | .textPart s => some (.text s)
    | .imageUrl u m => some (.image u m)
    | .toolCallPart i n a => some (.toolCall i n a)
    | .toolMsg i o => some (.toolResult i o)

/-- Modelled from the spec: the Gemini-style converter declares no support
for tool results and encoding one is a ConversionError (none), never silent
data loss. -/
def geminiPartConverter : PartConverter GeminiNativePart where
  supports := fun p =>
    match p with
    | .toolResult _ _ => false
    | _ => true
  toNative := fun p =>
    match p with
    | .text s => some (.textPart s)
    | .image r m => some (.inlineData (normalizeMime m) r)
    | .toolCall i n a => some (.functionCall i n a)
    | .toolResult _ _ => none
  toCanonical := fun n =>
    match n with
    | .textPart s => some (.text s)
    | .inlineData m d => some (.image d m)
    | .functionCall i n a => some (.toolCall i n a)

/-- The round-trip image the spec promises for a supported part: text and
tool parts unchanged, image parts unchanged on the reference with the mime
type normalised. -/
def roundTripTarget : ContentPart → ContentPart
  | .image r m => .image r (normalizeMime m)
  | p => p

/-- A converter round-trips every content kind it declares support for. -/
def converterRoundTrips {Native : Type} (conv : PartConverter Native) : Prop :=
  ∀ x : ContentPart, conv.supports x = true →
    (conv.toNative x).bind conv.toCanonical = some (roundTripTarget x)

/-- C1: for every modelled Converter and every ContentPart of a kind it
declares support for, converting to the native form and back returns the
part unchanged for text and tool-call parts and unchanged on the reference
with a normalised mime type for image parts. -/
theorem converters_round_trip :
    converterRoundTrips openAIPartConverter ∧ converterRoundTrips geminiPartConverter := by
  constructor
  · intro x hx
    cases x <;> simp [openAIPartConverter, roundTripTarget]
  · intro x hx
    cases x <;> simp_all [geminiPartConverter, roundTripTarget]

/-- Witness for C1: a concrete tool call round-trips through the
OpenAI-style converter unchanged. -/
theorem converters_round_trip_witness :
    (openAIPartConverter.toNative (ContentPart.toolCall "call-1" "get_weather" "city=Oslo")).bind
      openAIPartConverter.toCanonical =
      some (ContentPart.toolCall "call-1" "get_weather" "city=Oslo") :=
  converters_round_trip.1 (ContentPart.toolCall "call-1" "get_weather" "city=Oslo") rfl

/- ===== Fallback Router candidate list (C2) ===== -/

/-- Deduplication keeping the first occurrence of each element, as the
candidate list construction requires. -/
def dedupFirst {α : Type} [DecidableEq α] (l : List α) : List α :=
  l.foldl (fun acc a => if a ∈ acc then acc else acc ++ [a]) []

theorem foldl_dedup_nodup {α : Type} [DecidableEq α] (l : List α) :
    ∀ acc : List α, acc.Nodup →
      (l.foldl (fun acc a => if a ∈ acc then acc else acc ++ [a]) acc).Nodup := by
  induction l with
  | nil => intro acc h; simpa using h
  | cons a t ih =>
    intro acc hacc
    simp only [List.foldl_cons]
    by_cases hmem : a ∈ acc
    · simpa [hmem] using ih acc hacc
    · have hstep : (acc ++ [a]).Nodup := by
        simp [List.nodup_append, hacc, hmem]
      simpa [hmem] using ih _ hstep

theorem dedupFirst_nodup {α : Type} [DecidableEq α] (l : List α) :
    (dedupFirst l).Nodup :=
  foldl_dedup_nodup l [] List.nodup_nil

/-- Modelled from the spec: configuration lookup in a JSON-object mapping
(providerFallbackChain, modelFallbackMapping, spec section 6); a missing
key contributes no fallbacks. -/
def lookupChain (m : List (String × List String)) (k : String) : List String :=
  match m.find? (fun p => p.1 == k) with
  | some p => p.2
  | none => []

/-- Modelled from the spec: the model-name candidates on one provider: the
requested model followed by its modelFallbackMapping entries. -/
def modelCandidates (modelFallbackMapping : List (String × List String)) (model : String) :
    List String :=
  model :: lookupChain modelFallbackMapping model

/-- Modelled from the spec: the Fallback Router candidate list (spec 4.4
step 1); the Fallback Router source is not in the repository snapshot.
The requested provider is followed by its fallback chain, each provider is
expanded through the model fallback entries, and duplicates are dropped
keeping first occurrences. -/
def buildCandidates (providerFallbackChain modelFallbackMapping : List (String × List String))
    (provider model : String) : List (String × String) :=
  dedupFirst
    ((provider :: lookupChain providerFallbackChain provider).flatMap
      (fun p => (modelCandidates modelFallbackMapping model).map (fun m => (p, m))))

/-- C2: for every configuration the candidate list has no duplicate
(providerType, modelName) pair, and the configuration of the spec example
produces exactly the expected four candidates in order. -/
theorem buildCandidates_spec :
    (∀ chain mapping p m, (buildCandidates chain mapping p m).Nodup) ∧
    buildCandidates [("kiro", ["gemini"])] [("gpt-4", ["gpt-4-fallback"])] "kiro" "gpt-4" =
      [("kiro", "gpt-4"), ("kiro", "gpt-4-fallback"),
        ("gemini", "gpt-4"), ("gemini", "gpt-4-fallback")] := by
  refine ⟨fun chain mapping p m => dedupFirst_nodup _, by decide⟩

/- ===== Streaming delivery (C3) ===== -/

/-- Modelled from the spec: one upstream stream attempt (spec 4.4 step 6):
the content chunks the provider produced in order, and whether the attempt
then failed instead of finishing cleanly. -/
structure StreamAttempt where
  chunks : List String
  failed : Bool
deriving DecidableEq, Repr

/-- A chunk as the caller sees it: forwarded content, a clean terminal
chunk, or a terminal error chunk. -/
inductive DeliveredChunk where
  | content (c : String) : DeliveredChunk
  | done : DeliveredChunk
  | terminalError : DeliveredChunk
deriving DecidableEq, Repr

/-- Modelled from the spec: the streaming delivery loop of the Fallback
Router (spec 4.4 step 6); the router source is not in the repository
snapshot.  Candidate attempts are consumed in order; an attempt that fails
before its first chunk advances to the next candidate; once a chunk has
been forwarded, a failure yields exactly one terminal error chunk and no
further attempt; a clean attempt yields its chunks and a terminal done
chunk; running out of candidates yields a single terminal error chunk. -/
def deliverStream : List StreamAttempt → List DeliveredChunk
  | [] => [.terminalError]
  | a :: rest =>
    if a.failed then
      if a.chunks.isEmpty then deliverStream rest
      else a.chunks.map .content ++ [.terminalError]
    else a.chunks.map .content ++ [.done]

/-- C3: once a first chunk has been forwarded, a mid-stream failure after n
content chunks delivers exactly those n chunks plus one terminal error
chunk, independently of the remaining candidates (no retry, no restart),
and no content chunk is delivered more often than the upstream produced
it. -/
theorem deliverStream_no_restart (a : StreamAttempt) (rest : List StreamAttempt)
    (hfail : a.failed = true) (hne : a.chunks ≠ []) :
    deliverStream (a :: rest) = a.chunks.map .content ++ [.terminalError] ∧
    (∀ c : String,
      (deliverStream (a :: rest)).count (.content c) = a.chunks.count c) := by
  have heq : deliverStream (a :: rest) = a.chunks.map .content ++ [.terminalError] := by
    simp [deliverStream, hfail, hne]
  refine ⟨heq, fun c => ?_⟩
  rw [heq, List.count_append]
  have hinj : Function.Injective DeliveredChunk.content := by
    intro x y h; cases h; rfl
  rw [List.count_map_of_injective _ _ hinj]
  simp

/-- Witness for C3: two content chunks then a failure deliver exactly those
two chunks and one terminal error chunk even though another candidate was
still available. -/
theorem deliverStream_no_restart_witness :
    deliverStream [⟨["alpha", "beta"], true⟩, ⟨["gamma"], false⟩] =
      [.content "alpha", .content "beta", .terminalError] :=
  (deliverStream_no_restart ⟨["alpha", "beta"], true⟩ [⟨["gamma"], false⟩]
    rfl (by decide)).1

/- ===== Provider Pool and Fallback Router attempts (C4, C5, C6) ===== -/

/-- Modelled from the spec: ProviderCredential with its health state (spec
section 3); the Provider Pool source is not in the repository snapshot.
Timestamps are milliseconds as natural numbers. -/
structure ProviderCredential where
  id : String
  providerType : String
  errorCount : Nat
  disabledUntil : Option Nat
  priority : Nat
deriving DecidableEq, Repr

/-- Modelled from the spec: the pool tuning knobs MAX_ERROR_COUNT and the
disablement cool-down (spec sections 4.3 and 6). -/
structure PoolConfig where
  maxErrorCount : Nat
  coolDownMs : Nat
deriving DecidableEq, Repr

/-- Modelled from the spec: Provider Pool select (spec 4.3).  The pool list
is kept ordered by priority then insertion order, so select returns the
first credential of the provider type that is not disabled and not
excluded; a disabled credential stays excluded until an external reset
clears disabledUntil. -/
def selectCredential (pool : List ProviderCredential) (providerType : String)
    (excludeIds : List String) : Option ProviderCredential :=
  pool.find? (fun c =>
    c.providerType == providerType && c.disabledUntil.isNone && !(excludeIds.contains c.id))

/-- Modelled from the spec: recordFailure (spec 4.3): when retryable the
credential errorCount is incremented and, when the configured maximum is
reached, disabledUntil is set to now plus the cool-down; when not
retryable no mutation occurs. -/
def recordFailure (cfg : PoolConfig) (now : Nat) (pool : List ProviderCredential)
    (credentialId : String) (retryable : Bool) : List ProviderCredential :=
  if retryable then
    pool.map (fun c =>
      if c.id == credentialId then
        { c with
          errorCount := c.errorCount + 1,
          disabledUntil :=
            if cfg.maxErrorCount ≤ c.errorCount + 1 then some (now + cfg.coolDownMs)
            else c.disabledUntil }
      else c)
  else pool

/-- Modelled from the spec: recordSuccess (spec 4.3): errorCount is reset
to 0 and disabledUntil is cleared when the cool-down has elapsed. -/
def recordSuccess (now : Nat) (pool : List ProviderCredential)
    (credentialId : String) : List ProviderCredential :=
  pool.map (fun c =>
    if c.id == credentialId then
      { c with
        errorCount := 0,
        disabledUntil :=
          match c.disabledUntil with
          | some t => if t ≤ now then none else some t
          | none => none }
    else c)

/-- Modelled from the spec: the error taxonomy (spec section 7) reduced to
the classification the pool consumes. -/
inductive GatewayError where
  | conversionError : GatewayError
  | unknownProviderError : GatewayError
  | networkError : GatewayError
  | httpStatus (status : Nat) : GatewayError
  | quotaExceeded : GatewayError
  | badRequest : GatewayError
deriving DecidableEq, Repr

/-- Modelled from the spec: retryable classification (spec section 7):
network failures, HTTP 429 and 5xx, and provider-declared quota or
overload are retryable; conversion errors, unknown providers and
caller-side bad requests are not. -/
def isRetryable : GatewayError → Bool
  | .networkError => true
  | .httpStatus s => s == 429 || (500 ≤ s && s ≤ 599)
  | .quotaExceeded => true
  | .conversionError => false
  | .unknownProviderError => false
  | .badRequest => false

/-- Modelled from the spec: the router records every failure with its
retryable classification (spec 4.4 step 5 and section 7). -/
def applyFailure (cfg : PoolConfig) (now : Nat) (pool : List ProviderCredential)
    (credentialId : String) (e : GatewayError) : List ProviderCredential :=
  recordFailure cfg now pool credentialId (isRetryable e)

/-- One attempted candidate of a dispatch. -/
structure AttemptRecord where
  providerType : String
  modelName : String
  credentialId : String
deriving DecidableEq, Repr

/-- Modelled from the spec: the attempt loop of one Fallback Router
dispatch (spec 4.4 steps 2-5) restricted to what it attempts; the router
source is not in the repository snapshot.  Candidates are taken in order
under a total attempt budget; a candidate whose provider has no available
credential is skipped without spending budget; an attempted credential id
joins the exclusion set of the dispatch. -/
def attemptLoop (pool : List ProviderCredential) :
    List (String × String) → List String → Nat → List AttemptRecord
  | [], _, _ => []
  | _ :: _, _, 0 => []
  | (p, m) :: rest, tried, Nat.succ budget =>
    match selectCredential pool p tried with
    | none => attemptLoop pool rest tried (Nat.succ budget)
    | some c => ⟨p, m, c.id⟩ :: attemptLoop pool rest (c.id :: tried) budget

theorem selectCredential_not_excluded {pool : List ProviderCredential} {p : String}
    {excl : List String} {c : ProviderCredential}
    (h : selectCredential pool p excl = some c) : c.id ∉ excl := by
  have hp := List.find?_some h
  simp only [Bool.and_eq_true] at hp
  simpa using hp.2

theorem selectCredential_not_disabled {pool : List ProviderCredential} {p : String}
    {excl : List String} {c : ProviderCredential}
    (h : selectCredential pool p excl = some c) : c.disabledUntil = none := by
  have hp := List.find?_some h
  simp only [Bool.and_eq_true, Option.isNone_iff_eq_none] at hp
  exact hp.1.2

theorem selectCredential_mem {pool : List ProviderCredential} {p : String}
    {excl : List String} {c : ProviderCredential}
    (h : selectCredential pool p excl = some c) : c ∈ pool :=
  List.mem_of_find?_eq_some h

theorem attemptLoop_not_tried (pool : List ProviderCredential) :
    ∀ (cands : List (String × String)) (tried : List String) (budget : Nat)
      (r : AttemptRecord), r ∈ attemptLoop pool cands tried budget →
      r.credentialId ∉ tried := by
  intro cands
  induction cands with
  | nil => intro tried budget r hr; simp [attemptLoop] at hr
  | cons pm rest ih =>
    intro tried budget r hr
    obtain ⟨p, m⟩ := pm
    cases budget with
    | zero => simp [attemptLoop] at hr
    | succ b =>
      rw [attemptLoop] at hr
      cases hsel : selectCredential pool p tried with
      | none =>
        rw [hsel] at hr
        exact ih tried (b + 1) r hr
      | some c =>
        rw [hsel] at hr
        rcases List.mem_cons.mp hr with heq | hmem
        · subst heq
          exact selectCredential_not_excluded hsel
        · have hnot := ih (c.id :: tried) b r hmem
          intro hmem2
          exact hnot (List.mem_cons_of_mem _ hmem2)

theorem attemptLoop_credIds_nodup (pool : List ProviderCredential) :
    ∀ (cands : List (String × String)) (tried : List String) (budget : Nat),
      ((attemptLoop pool cands tried budget).map AttemptRecord.credentialId).Nodup := by
  intro cands
  induction cands with
  | nil => intro tried budget; simp [attemptLoop]
  | cons pm rest ih =>
    intro tried budget
    obtain ⟨p, m⟩ := pm
    cases budget with
    | zero => simp [attemptLoop]
    | succ b =>
      rw [attemptLoop]
      cases hsel : selectCredential pool p tried with
      | none => exact ih tried (b + 1)
      | some c =>
        simp only [List.map_cons]
        refine List.nodup_cons.mpr ⟨?_, ih (c.id :: tried) b⟩
        intro hmem
        obtain ⟨r, hr, hid⟩ := List.mem_map.mp hmem
        have hnot := attemptLoop_not_tried pool rest (c.id :: tried) b r hr
        apply hnot
        rw [hid]
        exact List.mem_cons_self _ _

/-- C4: within one dispatch, no (providerType, modelName, credentialId)
triple is attempted twice, for every pool, candidate list and budget;
in fact no credential id is ever attempted twice. -/
theorem attemptLoop_no_duplicate_triples (pool : List ProviderCredential)
    (cands : List (String × String)) (budget : Nat) :
    (attemptLoop pool cands [] budget).Nodup ∧
    ((attemptLoop pool cands [] budget).map AttemptRecord.credentialId).Nodup := by
  have h := attemptLoop_credIds_nodup pool cands [] budget
  exact ⟨List.Nodup.of_map _ h, h⟩

/-- C5: recordFailure with a non-retryable classification performs no
mutation, a ConversionError leaves the pool unchanged, and recordSuccess
never increases any credential errorCount; hence errorCount grows only
through recordFailure with a retryable classification. -/
theorem recordFailure_only_retryable_mutates :
    (∀ cfg now pool cid, recordFailure cfg now pool cid false = pool) ∧
    (∀ cfg now pool cid e, isRetryable e = false →
      applyFailure cfg now pool cid e = pool) ∧
    (∀ cfg now pool cid, applyFailure cfg now pool cid .conversionError = pool) ∧
    (∀ now pool cid,
      List.Forall₂ (fun c2 c1 => c2.errorCount ≤ c1.errorCount)
        (recordSuccess now pool cid) pool) := by
  refine ⟨fun cfg now pool cid => rfl, ?_, fun cfg now pool cid => rfl, ?_⟩
  · intro cfg now pool cid e he
    simp [applyFailure, he, recordFailure]
  · intro now pool cid
    induction pool with
    | nil => simp [recordSuccess]
    | cons c rest ih =>
      simp only [recordSuccess, List.map_cons] at *
      refine List.Forall₂.cons ?_ ih
      by_cases h : c.id == cid <;> simp [h]

/-- Witness for C5: a caller-side bad request against a live credential
leaves the pool exactly as it was. -/
theorem recordFailure_only_retryable_mutates_witness :
    applyFailure ⟨3, 300000⟩ 17 [⟨"k1", "kiro", 2, none, 0⟩] "k1"
      GatewayError.badRequest = [⟨"k1", "kiro", 2, none, 0⟩] :=
  recordFailure_only_retryable_mutates.2.1 ⟨3, 300000⟩ 17
    [⟨"k1", "kiro", 2, none, 0⟩] "k1" GatewayError.badRequest rfl

/-- Modelled from the spec: a run of consecutive retryable failures
recorded against the same credential at the given timestamps, with no
intervening success or reset. -/
def failRepeatedly (cfg : PoolConfig) (cid : String) :
    List Nat → List ProviderCredential → List ProviderCredential
  | [], pool => pool
  | t :: ts, pool => failRepeatedly cfg cid ts (recordFailure cfg t pool cid true)

theorem recordFailure_mem_elim {cfg : PoolConfig} {now : Nat}
    {pool : List ProviderCredential} {cid : String} {c2 : ProviderCredential}
    (h : c2 ∈ recordFailure cfg now pool cid true) :
    ∃ c1 ∈ pool,
      (c1.id = cid →
        c2.id = cid ∧ c2.errorCount = c1.errorCount + 1 ∧
        (cfg.maxErrorCount ≤ c1.errorCount + 1 →
          c2.disabledUntil = some (now + cfg.coolDownMs))) ∧
      (c1.id ≠ cid → c2 = c1) := by
  simp only [recordFailure, if_true, List.mem_map] at h
  obtain ⟨c1, hc1, heq⟩ := h
  refine ⟨c1, hc1, ?_, ?_⟩
  · intro hid
    subst heq
    simp only [hid, beq_self_eq_true, if_true]
    refine ⟨trivial, trivial, ?_⟩
    intro hle
    simp [hle]
  · intro hid
    subst heq
    simp [hid]

theorem failRepeatedly_disables (cfg : PoolConfig) (cid : String) :
    ∀ (ts : List Nat) (pool : List ProviderCredential), ts ≠ [] →
      (∀ c ∈ pool, c.id = cid → cfg.maxErrorCount ≤ c.errorCount + ts.length) →
      ∀ c2 ∈ failRepeatedly cfg cid ts pool, c2.id = cid →
        c2.disabledUntil.isSome = true := by
  intro ts
  induction ts with
  | nil => intro pool hne; exact absurd rfl hne
  | cons t rest ih =>
    intro pool _ hreach c2 hc2 hid
    by_cases hrest : rest = []
    · subst hrest
      simp only [failRepeatedly] at hc2
      obtain ⟨c1, hc1, hyes, hno⟩ := recordFailure_mem_elim hc2
      by_cases h1 : c1.id = cid
      · obtain ⟨_, _, hdis⟩ := hyes h1
        have hle : cfg.maxErrorCount ≤ c1.errorCount + 1 := by
          have := hreach c1 hc1 h1
          simpa using this
        rw [hdis hle]
        rfl
      · rw [hno h1] at hid
        exact absurd hid h1
    · have hstep : ∀ c ∈ recordFailure cfg t pool cid true, c.id = cid →
          cfg.maxErrorCount ≤ c.errorCount + rest.length := by
        intro c hc hcid
        obtain ⟨c1, hc1, hyes, hno⟩ := recordFailure_mem_elim hc
        by_cases h1 : c1.id = cid
        · obtain ⟨_, hcount, _⟩ := hyes h1
          have := hreach c1 hc1 h1
          simp only [List.length_cons] at this
          omega
        · rw [hno h1] at hcid
          exact absurd hcid h1
      simp only [failRepeatedly] at hc2
      exact ih (recordFailure cfg t pool cid true) hrest hstep c2 hc2 hid

/-- C6: for every pool configuration, once a credential reaches the
configured maximum errorCount through a run of consecutive retryable
failures (one or more, from any starting count), its disabledUntil is set,
and no subsequent select call (any provider type, any exclusion set)
returns a credential with that id until an external reset clears it; the
MAX_ERROR_COUNT = 3 instance is three retryable failures against a fresh
credential followed by a fourth dispatch that must not select it. -/
theorem disablement_threshold (cfg : PoolConfig) (ts : List Nat)
    (pool : List ProviderCredential) (cid : String) (hne : ts ≠ [])
    (hreach : ∀ c ∈ pool, c.id = cid → cfg.maxErrorCount ≤ c.errorCount + ts.length) :
    (∀ c ∈ failRepeatedly cfg cid ts pool, c.id = cid →
      c.disabledUntil.isSome = true) ∧
    (∀ p excl c, selectCredential (failRepeatedly cfg cid ts pool) p excl = some c →
      c.id ≠ cid) := by
  have hmain := failRepeatedly_disables cfg cid ts pool hne hreach
  refine ⟨hmain, ?_⟩
  intro p excl c hsel hcid
  have hdis := selectCredential_not_disabled hsel
  have hmem := selectCredential_mem hsel
  have hsome := hmain c hmem hcid
  rw [hdis] at hsome
  cases hsome

/-- Witness for C6 at the MAX_ERROR_COUNT = 3 instance: a fresh credential
is disabled after three consecutive retryable failures. -/
theorem disablement_threshold_witness :
    (⟨"k1", "kiro", 3, some 300007, 0⟩ : ProviderCredential).disabledUntil.isSome = true :=
  (disablement_threshold ⟨3, 300000⟩ [5, 6, 7] [⟨"k1", "kiro", 0, none, 0⟩] "k1"
    (by decide) (by decide)).1 ⟨"k1", "kiro", 3, some 300007, 0⟩ (by decide) rfl

/- ===== Stream reassembly equivalence (C7) ===== -/

/-- Modelled from the spec: the canonical finish reasons (spec section 3). -/
inductive FinishReason where
  | stop : FinishReason
  | length : FinishReason
  | toolCalls : FinishReason
  | contentFilter : FinishReason
  | error : FinishReason
deriving DecidableEq, Repr

/-- Token usage counters of the canonical model. -/
structure TokenUsage where
  promptTokens : Nat
  completionTokens : Nat
deriving DecidableEq, Repr

/-- Modelled from the spec: the fixed per-provider finish-reason lookup
table (spec 4.1); unrecognized native finish reasons map to error. -/
def mapFinishReason : String → FinishReason
  | "STOP" => .stop
  | "MAX_TOKENS" => .length
  | "TOOL_CALLS" => .toolCalls
  | "SAFETY" => .contentFilter
  | _ => .error

/-- Modelled from the spec: a native stream chunk of the modelled provider:
an optional text delta, and the finish reason and usage carried by the
terminal chunk (spec section 3). -/
structure NativeStreamChunk where
  deltaText : Option String
  finishReason : Option String
  usage : Option TokenUsage
deriving DecidableEq, Repr

/-- Modelled from the spec: the native non-streaming response of the
modelled provider. -/
structure NativeResponse where
  text : String
  finishReason : String
  usage : TokenUsage
deriving DecidableEq, Repr

/-- Modelled from the spec: UnifiedStreamChunk (spec section 3). -/
structure UnifiedStreamChunk where
  deltaText : Option String
  finishReason : Option FinishReason
  usage : Option TokenUsage
deriving DecidableEq, Repr

/-- The observable single-choice view of a UnifiedResponse: assembled text,
finish reason and usage. -/
structure UnifiedResponseView where
  text : String
  finishReason : FinishReason
  usage : TokenUsage
deriving DecidableEq, Repr

/-- Modelled from the spec: toCanonicalChunk of the modelled provider. -/
def toCanonicalChunk (n : NativeStreamChunk) : UnifiedStreamChunk :=
  { deltaText := n.deltaText,
    finishReason := n.finishReason.map mapFinishReason,
    usage := n.usage }

/-- Modelled from the spec: toCanonicalResponse of the modelled provider. -/
def toCanonicalResponse (r : NativeResponse) : UnifiedResponseView :=
  { text := r.text,
    finishReason := mapFinishReason r.finishReason,
    usage := r.usage }

/-- Modelled from the spec: concatenating canonical chunks in arrival
order: text deltas are appended, the last finish reason and usage seen are
kept, a stream with no terminal data reads as an error with zero usage. -/
def assembleChunks (chunks : List UnifiedStreamChunk) : UnifiedResponseView :=
  chunks.foldl
    (fun acc c =>
      { text := acc.text ++ c.deltaText.getD "",
        finishReason := c.finishReason.getD acc.finishReason,
        usage := c.usage.getD acc.usage })
    { text := "", finishReason := .error, usage := ⟨0, 0⟩ }

/-- Modelled from the spec: the non-streaming native response to the same
logical request as a recorded stream: the concatenated text, the terminal
finish reason and the final usage. -/
def nonStreamingOf (chunks : List NativeStreamChunk) : NativeResponse :=
  chunks.foldl
    (fun acc c =>
      { text := acc.text ++ c.deltaText.getD "",
        finishReason := c.finishReason.getD acc.finishReason,
        usage := c.usage.getD acc.usage })
    { text := "", finishReason := "", usage := ⟨0, 0⟩ }

theorem assembleChunks_foldl_commutes (chunks : List NativeStreamChunk) :
    ∀ acc : NativeResponse,
      (chunks.map toCanonicalChunk).foldl
        (fun acc c =>
          { text := acc.text ++ c.deltaText.getD "",
            finishReason := c.finishReason.getD acc.finishReason,
            usage := c.usage.getD acc.usage })
        (toCanonicalResponse acc) =
      toCanonicalResponse
        (chunks.foldl
          (fun acc c =>
            { text := acc.text ++ c.deltaText.getD "",
              finishReason := c.finishReason.getD acc.finishReason,
              usage := c.usage.getD acc.usage })
          acc) := by
  induction chunks with
  | nil => intro acc; simp
  | cons c rest ih =>
    intro acc
    simp only [List.map_cons, List.foldl_cons]
    rw [← ih]
    congr 1
    cases hf : c.finishReason <;> cases hu : c.usage <;>
      simp [toCanonicalChunk, toCanonicalResponse, hf, hu]

/-- C7: applying toCanonicalChunk to each native chunk of a stream and
concatenating the outputs in arrival order yields the same observable
UnifiedResponse as applying toCanonicalResponse once to the non-streaming
native response for the same logical request. -/
theorem stream_equivalence (chunks : List NativeStreamChunk) :
    assembleChunks (chunks.map toCanonicalChunk) =
      toCanonicalResponse (nonStreamingOf chunks) := by
  have h := assembleChunks_foldl_commutes chunks ⟨"", "", ⟨0, 0⟩⟩
  simpa [assembleChunks, nonStreamingOf, toCanonicalResponse, mapFinishReason] using h
